import Mathlib

/-!
Verification of the clinic appointment-booking backend.

The definitions below are a shallow embedding of the Python sources:

* `src/endpoints/appointments.py` — the `create_appointment` and
  `cancel_appointment` endpoint handlers acting on the MongoDB
  `physicians` and `appointments` collections;
* `src/agents/chatbot_agent.py` — the slot-filling chatbot handlers
  (`_handle_book_appointment`, `_handle_check_availability`,
  `_handle_other`) and their data-access helpers;
* `src/services/openai_service.py` — the failure default of
  `get_intent_classification`;
* `src/models/appointment.py` — the appointment status enumerations.

MongoDB collections are modelled as Lean lists of documents in natural
(collection-scan) order; `find_one` is `List.find?`, `update_one` is
`updateFirst` (it rewrites the first matching document only), and
`insert_one` appends.  An `update_one` with `arrayFilters` rewrites every
matching array element of the selected document, which is what the
`markSchedule` function does.  Timestamp fields (`created_at`,
`updated_at`) and free-text `notes` are omitted: no claim concerns them.
Document ids are modelled as `Nat` (MongoDB ObjectIds; uniqueness of
freshly inserted ids is a MongoDB guarantee and appears as a freshness
hypothesis on insertion).  Date and time strings ("YYYY-MM-DD", "HH:MM")
are `String`s compared with the bytewise string order, as BSON does.
-/

namespace Navi

/-- Element of a schedule day `time_slots` array (see `seed_doctors_data.py`
and the schedule handling in `appointments.py`). -/
structure TimeSlot where
  start_time : String
  end_time : String
  is_available : Bool
deriving DecidableEq, Inhabited

/-- Element of a physician `schedule` array: one date with its slots. -/
structure ScheduleDay where
  date : String
  time_slots : List TimeSlot
deriving DecidableEq, Inhabited

/-- Document of the `physicians` collection (the fields the verified code
reads). -/
structure Physician where
  id : Nat
  name : String
  specialty : String
  is_active : Bool
  consultation_price : Nat
  schedule : List ScheduleDay
deriving DecidableEq, Inhabited

/-- `AppointmentStatus` from `src/models/appointment.py`. -/
inductive AppointmentStatus where
  | pending
  | confirmed
  | completed
  | cancelled
  | no_show
deriving DecidableEq, Inhabited

/-- `PaymentStatus` from `src/models/appointment.py`. -/
inductive PaymentStatus where
  | pending
  | paid
  | refunded
  | failed
deriving DecidableEq, Inhabited

/-- Document of the `appointments` collection. -/
structure Appointment where
  id : Nat
  user_id : Nat
  physician_id : Nat
  date : String
  start_time : String
  end_time : String
  status : AppointmentStatus
  payment_status : PaymentStatus
  payment_intent_id : Option Nat
  amount : Nat
deriving DecidableEq, Inhabited

/-- The scheduling data the two appointment endpoints read and mutate. -/
structure SchedState where
  physicians : List Physician
  appointments : List Appointment
deriving DecidableEq, Inhabited

/-- Model of MongoDB `update_one`: rewrite the first document matching the
filter `f`, leave everything else unchanged. -/
def updateFirst (f : α → Bool) (g : α → α) : List α → List α
  | [] => []
  | x :: xs => if f x then g x :: xs else x :: updateFirst f g xs

/-- Slot rewrite of the `arrayFilters` element
`{slot.start_time: st, slot.end_time: et}`. -/
def markSlot (st et : String) (b : Bool) (sl : TimeSlot) : TimeSlot :=
  if sl.start_time = st ∧ sl.end_time = et then { sl with is_available := b } else sl

/-- Day rewrite of the `arrayFilters` element `{day.date: d}`. -/
def markDay (d st et : String) (b : Bool) (day : ScheduleDay) : ScheduleDay :=
  if day.date = d then { day with time_slots := day.time_slots.map (markSlot st et b) } else day

/-- The `$set {schedule.$[day].time_slots.$[slot].is_available: b}` update of
`appointments.py`: every slot with the given start and end time, in every
schedule entry with the given date, gets its availability set to `b`. -/
def markSchedule (d st et : String) (b : Bool) (p : Physician) : Physician :=
  { p with schedule := p.schedule.map (markDay d st et b) }

/-- Document filter of the schedule `update_one` calls in `appointments.py`:
`{_id: pid, schedule.date: d, schedule.time_slots.start_time: st,
schedule.time_slots.end_time: et}`.  Each dotted path matches when some
array element has the value, independently of the others. -/
def schedFilter (pid : Nat) (d st et : String) (p : Physician) : Bool :=
  p.id == pid && p.schedule.any (fun day => day.date == d)
    && p.schedule.any (fun day => day.time_slots.any (fun sl => sl.start_time == st))
    && p.schedule.any (fun day => day.time_slots.any (fun sl => sl.end_time == et))

/-- The availability validation loop of `create_appointment`
(`appointments.py` lines 38-48): scan the schedule for the first entry with
the requested date (the loop breaks after it), and look there for a slot
with the requested start time, end time and `is_available` true. -/
def slotAvailable (schedule : List ScheduleDay) (d st et : String) : Bool :=
  match schedule.find? (fun day => day.date == d) with
  | none => false
  | some day => day.time_slots.any
      (fun sl => sl.start_time == st && sl.end_time == et && sl.is_available)

/-- Request body `AppointmentCreate` (physician, date, start, end). -/
structure ApptRequest where
  physician_id : Nat
  date : String
  start_time : String
  end_time : String
deriving DecidableEq, Inhabited

/-- The `HTTPException` outcomes of `create_appointment` that the model can
reach (ObjectId format validation is outside the model). -/
inductive CreateError where
  | physicianNotFound
  | slotUnavailable
deriving DecidableEq, Inhabited

/-- The `HTTPException` outcomes of `cancel_appointment`. -/
inductive CancelError where
  | notFound
  | cannotCancel
deriving DecidableEq, Inhabited

/-- Status test of `cancel_appointment` line 343:
`status in [COMPLETED, CANCELLED, NO_SHOW]`. -/
def nonCancellable : AppointmentStatus → Bool
  | .completed => true
  | .cancelled => true
  | .no_show => true
  | _ => false

/-- The `create_appointment` endpoint of `appointments.py`:
look up the physician, validate the requested slot, insert a `pending`
appointment, and mark the slot unavailable.  `new_id` is the ObjectId
MongoDB assigns to the inserted document.  On error the endpoint raises
before any write, so the state is returned unchanged. -/
def create_appointment (s : SchedState) (uid : Nat) (req : ApptRequest) (new_id : Nat) :
    Option CreateError × SchedState :=
  match s.physicians.find? (fun p => p.id == req.physician_id) with
  | none => (some .physicianNotFound, s)
  | some phys =>
    if slotAvailable phys.schedule req.date req.start_time req.end_time then
      (none,
        { physicians :=
            updateFirst (schedFilter req.physician_id req.date req.start_time req.end_time)
              (markSchedule req.date req.start_time req.end_time false) s.physicians,
          appointments := s.appointments ++
            [{ id := new_id, user_id := uid, physician_id := req.physician_id,
               date := req.date, start_time := req.start_time, end_time := req.end_time,
               status := .pending, payment_status := .pending,
               payment_intent_id := none, amount := phys.consultation_price }] })
    else (some .slotUnavailable, s)

/-- The `cancel_appointment` endpoint of `appointments.py`:
look up the appointment by id and owner, reject the terminal statuses, set
the status to `cancelled`, refund the payment intent when one exists (the
external Stripe call may fail, which `pay_ok = false` models; the
exception is swallowed and cancellation continues), and mark the slot the
appointment held available again (that update is also
exception-swallowed).  On error the endpoint raises before any write. -/
def cancel_appointment (s : SchedState) (uid aid : Nat) (pay_ok : Bool) :
    Option CancelError × SchedState :=
  match s.appointments.find? (fun a => a.id == aid && a.user_id == uid) with
  | none => (some .notFound, s)
  | some appt =>
    if nonCancellable appt.status then (some .cannotCancel, s)
    else
      (none,
        { appointments :=
            match appt.payment_intent_id with
            | some _ =>
              if pay_ok then
                updateFirst (fun a => a.id == aid)
                  (fun a => { a with payment_status := .refunded })
                  (updateFirst (fun a => a.id == aid)
                    (fun a => { a with status := .cancelled }) s.appointments)
              else
                updateFirst (fun a => a.id == aid)
                  (fun a => { a with status := .cancelled }) s.appointments
            | none =>
              updateFirst (fun a => a.id == aid)
                (fun a => { a with status := .cancelled }) s.appointments,
          physicians :=
            updateFirst (schedFilter appt.physician_id appt.date appt.start_time appt.end_time)
              (markSchedule appt.date appt.start_time appt.end_time true) s.physicians })

/-! ### Slot/appointment invariant (claim C2) -/

/-- Test whether an appointment record has the `cancelled` status. -/
def isCancelledStatus : AppointmentStatus → Bool
  | .cancelled => true
  | _ => false

/-- Test whether an appointment is non-cancelled and references the slot key
`(pid, d, st, et)` — physician, date, start time, end time. -/
def apptActiveAt (pid : Nat) (d st et : String) (a : Appointment) : Bool :=
  !(isCancelledStatus a.status) && a.physician_id == pid && a.date == d
    && a.start_time == st && a.end_time == et

/-- Number of non-cancelled appointments referencing a slot key. -/
def activeCount (l : List Appointment) (pid : Nat) (d st et : String) : Nat :=
  (l.filter (apptActiveAt pid d st et)).length

/-- Whether some non-cancelled appointment references a slot key. -/
def isReferenced (l : List Appointment) (pid : Nat) (d st et : String) : Bool :=
  l.any (apptActiveAt pid d st et)

/-- States reachable by the two appointment endpoints from a fresh schedule:
every slot open, no appointment booked yet, and distinct physician
document ids (a MongoDB `_id` guarantee).  The `create` step carries the
MongoDB guarantee that a freshly inserted document id is new. -/
inductive Reachable : SchedState → Prop where
  | init (s : SchedState)
      (hids : (s.physicians.map Physician.id).Nodup)
      (hopen : ∀ p ∈ s.physicians, ∀ day ∈ p.schedule, ∀ sl ∈ day.time_slots,
        sl.is_available = true)
      (hempty : s.appointments = []) : Reachable s
  | create (s : SchedState) (uid : Nat) (req : ApptRequest) (new_id : Nat)
      (hs : Reachable s) (hfresh : new_id ∉ s.appointments.map Appointment.id) :
      Reachable (create_appointment s uid req new_id).2
  | cancel (s : SchedState) (uid aid : Nat) (pay_ok : Bool) (hs : Reachable s) :
      Reachable (cancel_appointment s uid aid pay_ok).2

/-- Per-slot part of the inductive invariant: a slot is open exactly when no
non-cancelled appointment references its key. -/
def SlotInvariant (s : SchedState) : Prop :=
  ∀ p ∈ s.physicians, ∀ day ∈ p.schedule, ∀ sl ∈ day.time_slots,
    (sl.is_available = true ↔
      activeCount s.appointments p.id day.date sl.start_time sl.end_time = 0)

/-- Strengthened inductive invariant: distinct document ids, at most one
non-cancelled appointment per slot key, and the per-slot condition. -/
def Inv (s : SchedState) : Prop :=
  (s.physicians.map Physician.id).Nodup ∧
  (s.appointments.map Appointment.id).Nodup ∧
  (∀ pid d st et, activeCount s.appointments pid d st et ≤ 1) ∧
  SlotInvariant s

theorem apptActiveAt_eq_true {pid : Nat} {d st et : String} {a : Appointment} :
    apptActiveAt pid d st et a = true ↔
      isCancelledStatus a.status = false ∧ a.physician_id = pid ∧ a.date = d ∧
        a.start_time = st ∧ a.end_time = et := by
  simp [apptActiveAt, Bool.and_eq_true, beq_iff_eq, Bool.not_eq_true', and_assoc]

theorem activeCount_append (l₁ l₂ : List Appointment) (pid : Nat) (d st et : String) :
    activeCount (l₁ ++ l₂) pid d st et =
      activeCount l₁ pid d st et + activeCount l₂ pid d st et := by
  simp [activeCount, List.filter_append]

theorem activeCount_cons (a : Appointment) (l : List Appointment)
    (pid : Nat) (d st et : String) :
    activeCount (a :: l) pid d st et =
      (if apptActiveAt pid d st et a then 1 else 0) + activeCount l pid d st et := by
  simp only [activeCount, List.filter_cons]
  split <;> simp [Nat.add_comm]

theorem activeCount_singleton (a : Appointment) (pid : Nat) (d st et : String) :
    activeCount [a] pid d st et = if apptActiveAt pid d st et a then 1 else 0 := by
  have h := activeCount_cons a [] pid d st et
  simpa [activeCount] using h

theorem isReferenced_eq_true {l : List Appointment} {pid : Nat} {d st et : String} :
    isReferenced l pid d st et = true ↔ activeCount l pid d st et ≠ 0 := by
  rw [isReferenced, List.any_eq_true, activeCount]
  constructor
  · rintro ⟨a, ha, hact⟩ h0
    have hmem : a ∈ List.filter (apptActiveAt pid d st et) l := List.mem_filter.2 ⟨ha, hact⟩
    rw [List.length_eq_zero] at h0
    simp [h0] at hmem
  · intro h
    have hne : List.filter (apptActiveAt pid d st et) l ≠ [] := by
      intro he
      exact h (by rw [he]; rfl)
    obtain ⟨a, ha⟩ := List.exists_mem_of_ne_nil _ hne
    exact ⟨a, (List.mem_filter.1 ha).1, (List.mem_filter.1 ha).2⟩

/-! ### Lemmas about `updateFirst` and `find?` -/

theorem updateFirst_of_forall_neg {α : Type} {f : α → Bool} {g : α → α} {l : List α}
    (h : ∀ x ∈ l, f x = false) : updateFirst f g l = l := by
  induction l with
  | nil => rfl
  | cons x xs ih =>
    simp only [updateFirst, h x (List.mem_cons_self x xs)]
    simp only [Bool.false_eq_true, if_false, List.cons.injEq, true_and]
    exact ih fun y hy => h y (List.mem_cons_of_mem x hy)

theorem updateFirst_append_cons {α : Type} {f : α → Bool} {g : α → α}
    {l₁ l₂ : List α} {x : α} (h₁ : ∀ y ∈ l₁, f y = false) (hx : f x = true) :
    updateFirst f g (l₁ ++ x :: l₂) = l₁ ++ g x :: l₂ := by
  induction l₁ with
  | nil => simp [updateFirst, hx]
  | cons y ys ih =>
    simp only [List.cons_append, updateFirst, h₁ y (List.mem_cons_self y ys),
      Bool.false_eq_true, if_false, List.cons.injEq, true_and]
    exact ih fun z hz => h₁ z (List.mem_cons_of_mem y hz)

theorem find?_decomp {α : Type} {p : α → Bool} {l : List α} {x : α}
    (h : l.find? p = some x) :
    ∃ l₁ l₂, l = l₁ ++ x :: l₂ ∧ ∀ y ∈ l₁, p y = false := by
  induction l with
  | nil => simp [List.find?] at h
  | cons a l ih =>
    by_cases hpa : p a
    · refine ⟨[], l, ?_, by simp⟩
      simp [List.find?_cons_of_pos _ hpa] at h
      simp [h]
    · rw [List.find?_cons_of_neg _ (by simpa using hpa)] at h
      obtain ⟨l₁, l₂, rfl, hneg⟩ := ih h
      exact ⟨a :: l₁, l₂, rfl, by
        intro y hy
        rcases List.mem_cons.1 hy with rfl | hy
        · simpa using hpa
        · exact hneg y hy⟩

theorem updateFirst_map_eq {α β : Type} (f : α → Bool) (g : α → α) (h : α → β)
    (hg : ∀ x, h (g x) = h x) (l : List α) :
    (updateFirst f g l).map h = l.map h := by
  induction l with
  | nil => rfl
  | cons x xs ih =>
    simp only [updateFirst]
    split
    · simp [hg x]
    · simp [ih]

theorem map_id_updateFirst_markSchedule (f : Physician → Bool) (d st et : String)
    (b : Bool) (l : List Physician) :
    (updateFirst f (markSchedule d st et b) l).map Physician.id = l.map Physician.id :=
  updateFirst_map_eq f (markSchedule d st et b) Physician.id (fun _ => rfl) l

theorem nodup_middle_ne {α β : Type} {h : α → β} {l₁ l₂ : List α} {x : α}
    (hnd : ((l₁ ++ x :: l₂).map h).Nodup) :
    (∀ y ∈ l₁, h y ≠ h x) ∧ (∀ y ∈ l₂, h y ≠ h x) := by
  rw [List.map_append, List.map_cons, List.nodup_append] at hnd
  obtain ⟨h1, h2, hdisj⟩ := hnd
  refine ⟨?_, ?_⟩
  · intro y hy heq
    exact hdisj (List.mem_map_of_mem h hy) (by rw [heq]; exact List.mem_cons_self _ _)
  · intro y hy heq
    rw [List.nodup_cons] at h2
    exact h2.1 (heq ▸ List.mem_map_of_mem h hy)

theorem markSchedule_id (d st et : String) (b : Bool) (p : Physician) :
    (markSchedule d st et b p).id = p.id := rfl

theorem schedFilter_eq_true {pid : Nat} {d st et : String} {p : Physician} :
    schedFilter pid d st et p = true ↔
      p.id = pid ∧ (∃ day ∈ p.schedule, day.date = d) ∧
        (∃ day ∈ p.schedule, ∃ sl ∈ day.time_slots, sl.start_time = st) ∧
        (∃ day ∈ p.schedule, ∃ sl ∈ day.time_slots, sl.end_time = et) := by
  simp [schedFilter, List.any_eq_true, Bool.and_eq_true, beq_iff_eq, and_assoc]

theorem schedFilter_false_no_key_slot {pid : Nat} {d st et : String} {p : Physician}
    (h : schedFilter pid d st et p = false) :
    ∀ day ∈ p.schedule, ∀ sl ∈ day.time_slots,
      ¬(p.id = pid ∧ day.date = d ∧ sl.start_time = st ∧ sl.end_time = et) := by
  rw [Bool.eq_false_iff, Ne, schedFilter_eq_true] at h
  rintro day hday sl hsl ⟨h1, h2, h3, h4⟩
  exact h ⟨h1, ⟨day, hday, h2⟩, ⟨day, hday, sl, hsl, h3⟩, ⟨day, hday, sl, hsl, h4⟩⟩

/-- Core preservation lemma for `SlotInvariant`: the schedule `update_one`
of either endpoint sets every slot of the key `(pid, d, st, et)` to `b` in
the first matching physician document; provided the appointment list
changed only at that key, and `b` says whether the key ends up
unreferenced, the per-slot invariant carries over. -/
theorem slotInvariant_preserve
    (phys : List Physician) (olds news : List Appointment)
    (pid : Nat) (d st et : String) (b : Bool)
    (hnd : (phys.map Physician.id).Nodup)
    (hslot : SlotInvariant ⟨phys, olds⟩)
    (hsame : ∀ pid₁ d₁ st₁ et₁, ¬(pid₁ = pid ∧ d₁ = d ∧ st₁ = st ∧ et₁ = et) →
      activeCount news pid₁ d₁ st₁ et₁ = activeCount olds pid₁ d₁ st₁ et₁)
    (hkey : b = true ↔ activeCount news pid d st et = 0) :
    SlotInvariant ⟨updateFirst (schedFilter pid d st et) (markSchedule d st et b) phys, news⟩ := by
  have transfer : ∀ p₁ ∈ phys,
      (∀ day ∈ p₁.schedule, ∀ sl ∈ day.time_slots,
        ¬(p₁.id = pid ∧ day.date = d ∧ sl.start_time = st ∧ sl.end_time = et)) →
      ∀ day ∈ p₁.schedule, ∀ sl ∈ day.time_slots,
        (sl.is_available = true ↔
          activeCount news p₁.id day.date sl.start_time sl.end_time = 0) := by
    intro p₁ hp₁ hmiss day hday sl hsl
    rw [hsame _ _ _ _ (hmiss day hday sl hsl)]
    exact hslot p₁ hp₁ day hday sl hsl
  have touched : ∀ p₁ ∈ phys, schedFilter pid d st et p₁ = true →
      ∀ day₁ ∈ (markSchedule d st et b p₁).schedule,
      ∀ sl₁ ∈ day₁.time_slots,
        (sl₁.is_available = true ↔
          activeCount news (markSchedule d st et b p₁).id day₁.date
            sl₁.start_time sl₁.end_time = 0) := by
    intro p₁ hp₁ hF day₁ hday₁ sl₁ hsl₁
    have hpid : p₁.id = pid := (schedFilter_eq_true.1 hF).1
    rw [markSchedule_id]
    obtain ⟨day, hday, rfl⟩ := List.mem_map.1 hday₁
    by_cases hd : day.date = d
    · rw [markDay, if_pos hd] at hsl₁ ⊢
      obtain ⟨sl, hsl, rfl⟩ := List.mem_map.1 hsl₁
      by_cases hm : sl.start_time = st ∧ sl.end_time = et
      · rw [markSlot, if_pos hm]
        show b = true ↔ _
        rw [hpid, hd, hm.1, hm.2]
        exact hkey
      · rw [markSlot, if_neg hm]
        have hmiss : ¬(p₁.id = pid ∧ day.date = d ∧ sl.start_time = st ∧ sl.end_time = et) := by
          rintro ⟨_, _, h3, h4⟩
          exact hm ⟨h3, h4⟩
        rw [hsame _ _ _ _ hmiss]
        exact hslot p₁ hp₁ day hday sl hsl
    · rw [markDay, if_neg hd] at hsl₁ ⊢
      have hmiss : ¬(p₁.id = pid ∧ day.date = d ∧ sl₁.start_time = st ∧ sl₁.end_time = et) := by
        rintro ⟨_, h2, _, _⟩
        exact hd h2
      rw [hsame _ _ _ _ hmiss]
      exact hslot p₁ hp₁ day hday sl₁ hsl₁
  intro p₁ hp₁ day₁ hday₁ sl₁ hsl₁
  cases hFfind : phys.find? (schedFilter pid d st et) with
  | none =>
    have hall : ∀ x ∈ phys, schedFilter pid d st et x = false := by
      intro x hx
      exact Bool.eq_false_iff.2 (List.find?_eq_none.1 hFfind x hx)
    rw [updateFirst_of_forall_neg hall] at hp₁
    exact transfer p₁ hp₁ (schedFilter_false_no_key_slot (hall p₁ hp₁)) day₁ hday₁ sl₁ hsl₁
  | some pm =>
    obtain ⟨q₁, q₂, hq, hnegq⟩ := find?_decomp hFfind
    have hFpm : schedFilter pid d st et pm = true := List.find?_some hFfind
    rw [hq, updateFirst_append_cons hnegq hFpm] at hp₁
    have hpmmem : pm ∈ phys := by
      rw [hq]
      exact List.mem_append_right _ (List.mem_cons_self _ _)
    rcases List.mem_append.1 hp₁ with hin | hin
    · have hmem : p₁ ∈ phys := by
        rw [hq]
        exact List.mem_append_left _ hin
      exact transfer p₁ hmem
        (schedFilter_false_no_key_slot (hnegq p₁ hin)) day₁ hday₁ sl₁ hsl₁
    · rcases List.mem_cons.1 hin with rfl | hin
      · exact touched pm hpmmem hFpm day₁ hday₁ sl₁ hsl₁
      · have hmem : p₁ ∈ phys := by
          rw [hq]
          exact List.mem_append_right _ (List.mem_cons_of_mem _ hin)
        have hne : p₁.id ≠ pid := by
          have h2 := (nodup_middle_ne (by rw [← hq]; exact hnd)).2 p₁ hin
          rw [(schedFilter_eq_true.1 hFpm).1] at h2
          exact h2
        refine transfer p₁ hmem ?_ day₁ hday₁ sl₁ hsl₁
        rintro day hday sl hsl ⟨h1, _, _, _⟩
        exact hne h1

theorem isCancelledStatus_eq_false {st : AppointmentStatus} (h : nonCancellable st = false) :
    isCancelledStatus st = false := by
  cases st <;> simp_all [nonCancellable, isCancelledStatus]

theorem apptActiveAt_false_of_cancelled {a : Appointment}
    (h : isCancelledStatus a.status = true) (pid : Nat) (d st et : String) :
    apptActiveAt pid d st et a = false := by
  simp [apptActiveAt, h]

theorem key_of_apptActiveAt {pid : Nat} {d st et : String} {a : Appointment}
    (h : apptActiveAt pid d st et a = true) :
    a.physician_id = pid ∧ a.date = d ∧ a.start_time = st ∧ a.end_time = et :=
  (apptActiveAt_eq_true.1 h).2

theorem apptActiveAt_self {a : Appointment} (h : isCancelledStatus a.status = false) :
    apptActiveAt a.physician_id a.date a.start_time a.end_time a = true :=
  apptActiveAt_eq_true.2 ⟨h, rfl, rfl, rfl, rfl⟩

/-- Preservation of the strengthened invariant by `create_appointment`. -/
theorem inv_create (s : SchedState) (uid : Nat) (req : ApptRequest) (new_id : Nat)
    (hfresh : new_id ∉ s.appointments.map Appointment.id) (hinv : Inv s) :
    Inv (create_appointment s uid req new_id).2 := by
  obtain ⟨hnpids, hnaids, hcnt, hslot⟩ := hinv
  unfold create_appointment
  split
  next hfind => exact ⟨hnpids, hnaids, hcnt, hslot⟩
  next phys hfind =>
    split
    next havail =>
      have hpid : phys.id = req.physician_id := by
        simpa [beq_iff_eq] using List.find?_some hfind
      have hphysmem : phys ∈ s.physicians := List.mem_of_find?_eq_some hfind
      rw [slotAvailable] at havail
      cases hdf : phys.schedule.find? (fun day => day.date == req.date) with
      | none => simp [hdf] at havail
      | some day₀ =>
        simp only [hdf] at havail
        have hday₀mem : day₀ ∈ phys.schedule := List.mem_of_find?_eq_some hdf
        have hday₀date : day₀.date = req.date := by
          simpa [beq_iff_eq] using List.find?_some hdf
        obtain ⟨sl₀, hsl₀mem, hsl₀⟩ := List.any_eq_true.1 havail
        simp only [Bool.and_eq_true, beq_iff_eq] at hsl₀
        obtain ⟨⟨hsl₀st, hsl₀et⟩, hsl₀av⟩ := hsl₀
        have hzero : activeCount s.appointments req.physician_id req.date
            req.start_time req.end_time = 0 := by
          have h := hslot phys hphysmem day₀ hday₀mem sl₀ hsl₀mem
          rw [hpid, hday₀date, hsl₀st, hsl₀et] at h
          exact h.1 hsl₀av
        -- behaviour of the inserted appointment w.r.t. slot keys
        have hactnew : ∀ pid₁ d₁ st₁ et₁,
            apptActiveAt pid₁ d₁ st₁ et₁
              { id := new_id, user_id := uid, physician_id := req.physician_id,
                date := req.date, start_time := req.start_time, end_time := req.end_time,
                status := .pending, payment_status := .pending,
                payment_intent_id := none, amount := phys.consultation_price } = true ↔
              (pid₁ = req.physician_id ∧ d₁ = req.date ∧
                st₁ = req.start_time ∧ et₁ = req.end_time) := by
          intro pid₁ d₁ st₁ et₁
          rw [apptActiveAt_eq_true]
          constructor
          · rintro ⟨-, h1, h2, h3, h4⟩
            exact ⟨h1.symm, h2.symm, h3.symm, h4.symm⟩
          · rintro ⟨h1, h2, h3, h4⟩
            exact ⟨rfl, h1.symm, h2.symm, h3.symm, h4.symm⟩
        have hsame : ∀ pid₁ d₁ st₁ et₁,
            ¬(pid₁ = req.physician_id ∧ d₁ = req.date ∧
              st₁ = req.start_time ∧ et₁ = req.end_time) →
            activeCount (s.appointments ++
              [{ id := new_id, user_id := uid, physician_id := req.physician_id,
                 date := req.date, start_time := req.start_time, end_time := req.end_time,
                 status := .pending, payment_status := .pending,
                 payment_intent_id := none, amount := phys.consultation_price }])
              pid₁ d₁ st₁ et₁ = activeCount s.appointments pid₁ d₁ st₁ et₁ := by
          intro pid₁ d₁ st₁ et₁ hmiss
          rw [activeCount_append, activeCount_singleton,
            if_neg (fun h => hmiss ((hactnew _ _ _ _).1 h)), Nat.add_zero]
        have hone : activeCount (s.appointments ++
            [{ id := new_id, user_id := uid, physician_id := req.physician_id,
               date := req.date, start_time := req.start_time, end_time := req.end_time,
               status := .pending, payment_status := .pending,
               payment_intent_id := none, amount := phys.consultation_price }])
            req.physician_id req.date req.start_time req.end_time = 1 := by
          rw [activeCount_append, activeCount_singleton, hzero,
            if_pos ((hactnew _ _ _ _).2 ⟨rfl, rfl, rfl, rfl⟩)]
        refine ⟨?_, ?_, ?_, ?_⟩
        · rw [map_id_updateFirst_markSchedule]
          exact hnpids
        · rw [List.map_append]
          refine List.Nodup.append hnaids (List.nodup_singleton _) ?_
          intro a ha hb
          simp only [List.map_cons, List.map_nil, List.mem_singleton] at hb
          exact hfresh (hb ▸ ha)
        · intro pid₁ d₁ st₁ et₁
          by_cases hk : pid₁ = req.physician_id ∧ d₁ = req.date ∧
              st₁ = req.start_time ∧ et₁ = req.end_time
          · obtain ⟨rfl, rfl, rfl, rfl⟩ := hk
            rw [hone]
          · rw [hsame _ _ _ _ hk]
            exact hcnt _ _ _ _
        · exact slotInvariant_preserve s.physicians s.appointments _
            req.physician_id req.date req.start_time req.end_time false
            hnpids hslot hsame (by rw [hone]; simp)
    next havail => exact ⟨hnpids, hnaids, hcnt, hslot⟩

/-- Shape of the state produced by a successful `cancel_appointment`, and
preservation of the invariant for it: the found appointment is replaced by
a cancelled copy `a₂` and its slot is freed. -/
theorem inv_cancel_main (s : SchedState) (appt a₂ : Appointment)
    (m₁ m₂ : List Appointment) (hinv : Inv s)
    (hmdec : s.appointments = m₁ ++ appt :: m₂)
    (hactive : isCancelledStatus appt.status = false)
    (hcanc₂ : isCancelledStatus a₂.status = true) (hid₂ : a₂.id = appt.id) :
    Inv { physicians :=
            updateFirst (schedFilter appt.physician_id appt.date appt.start_time appt.end_time)
              (markSchedule appt.date appt.start_time appt.end_time true) s.physicians,
          appointments := m₁ ++ a₂ :: m₂ } := by
  obtain ⟨hnpids, hnaids, hcnt, hslot⟩ := hinv
  have hold : ∀ pid₁ d₁ st₁ et₁, activeCount s.appointments pid₁ d₁ st₁ et₁ =
      activeCount m₁ pid₁ d₁ st₁ et₁ +
        ((if apptActiveAt pid₁ d₁ st₁ et₁ appt then 1 else 0) +
          activeCount m₂ pid₁ d₁ st₁ et₁) := by
    intro pid₁ d₁ st₁ et₁
    rw [hmdec, activeCount_append, activeCount_cons]
  have hnew : ∀ pid₁ d₁ st₁ et₁, activeCount (m₁ ++ a₂ :: m₂) pid₁ d₁ st₁ et₁ =
      activeCount m₁ pid₁ d₁ st₁ et₁ + activeCount m₂ pid₁ d₁ st₁ et₁ := by
    intro pid₁ d₁ st₁ et₁
    rw [activeCount_append, activeCount_cons,
      apptActiveAt_false_of_cancelled hcanc₂]
    simp
  have hknew : activeCount (m₁ ++ a₂ :: m₂) appt.physician_id appt.date
      appt.start_time appt.end_time = 0 := by
    have h := hold appt.physician_id appt.date appt.start_time appt.end_time
    rw [if_pos (apptActiveAt_self hactive)] at h
    have hle := hcnt appt.physician_id appt.date appt.start_time appt.end_time
    rw [h] at hle
    rw [hnew]
    omega
  have hsame : ∀ pid₁ d₁ st₁ et₁,
      ¬(pid₁ = appt.physician_id ∧ d₁ = appt.date ∧
        st₁ = appt.start_time ∧ et₁ = appt.end_time) →
      activeCount (m₁ ++ a₂ :: m₂) pid₁ d₁ st₁ et₁ =
        activeCount s.appointments pid₁ d₁ st₁ et₁ := by
    intro pid₁ d₁ st₁ et₁ hmiss
    have hact : apptActiveAt pid₁ d₁ st₁ et₁ appt = false := by
      rw [Bool.eq_false_iff]
      intro h
      obtain ⟨h1, h2, h3, h4⟩ := key_of_apptActiveAt h
      exact hmiss ⟨h1.symm, h2.symm, h3.symm, h4.symm⟩
    rw [hnew, hold, hact]
    simp
  refine ⟨?_, ?_, ?_, ?_⟩
  · rw [map_id_updateFirst_markSchedule]
    exact hnpids
  · have : (m₁ ++ a₂ :: m₂).map Appointment.id =
        (m₁ ++ appt :: m₂).map Appointment.id := by
      simp [hid₂]
    rw [this, ← hmdec]
    exact hnaids
  · intro pid₁ d₁ st₁ et₁
    have h := hcnt pid₁ d₁ st₁ et₁
    rw [hold] at h
    rw [hnew]
    omega
  · exact slotInvariant_preserve s.physicians s.appointments _
      appt.physician_id appt.date appt.start_time appt.end_time true
      hnpids hslot hsame (by simp [hknew])

/-- Preservation of the strengthened invariant by `cancel_appointment`. -/
theorem inv_cancel (s : SchedState) (uid aid : Nat) (pay_ok : Bool) (hinv : Inv s) :
    Inv (cancel_appointment s uid aid pay_ok).2 := by
  have hinv₀ := hinv
  obtain ⟨hnpids, hnaids, hcnt, hslot⟩ := hinv
  unfold cancel_appointment
  split
  next hfind => exact ⟨hnpids, hnaids, hcnt, hslot⟩
  next appt hfind =>
    split
    next hnc => exact ⟨hnpids, hnaids, hcnt, hslot⟩
    next hnc =>
      have hactive : isCancelledStatus appt.status = false :=
        isCancelledStatus_eq_false (Bool.eq_false_iff.2 hnc)
      have haid : appt.id = aid := by
        have h := List.find?_some hfind
        simp only [Bool.and_eq_true, beq_iff_eq] at h
        exact h.1
      obtain ⟨m₁, m₂, hmdec, _⟩ := find?_decomp hfind
      have h1neg : ∀ y ∈ m₁, (y.id == aid) = false := by
        intro y hy
        rw [beq_eq_false_iff_ne, ← haid]
        exact (nodup_middle_ne (by rw [← hmdec]; exact hnaids)).1 y hy
      have happts1 : updateFirst (fun a => a.id == aid)
          (fun a => { a with status := AppointmentStatus.cancelled }) s.appointments =
          m₁ ++ { appt with status := AppointmentStatus.cancelled } :: m₂ := by
        rw [hmdec]
        exact updateFirst_append_cons h1neg (by simp [haid])
      cases hpi : appt.payment_intent_id with
      | none =>
        rw [happts1]
        exact inv_cancel_main s appt _ m₁ m₂ hinv₀ hmdec hactive rfl rfl
      | some pi =>
        by_cases hpk : pay_ok
        · rw [if_pos hpk, happts1,
            updateFirst_append_cons h1neg (by simp [haid])]
          exact inv_cancel_main s appt _ m₁ m₂ hinv₀ hmdec hactive rfl rfl
        · rw [if_neg hpk, happts1]
          exact inv_cancel_main s appt _ m₁ m₂ hinv₀ hmdec hactive rfl rfl

/-- Every reachable state satisfies the strengthened invariant. -/
theorem reachable_inv {s : SchedState} (h : Reachable s) : Inv s := by
  induction h with
  | init s hids hopen hempty =>
    refine ⟨hids, ?_, ?_, ?_⟩
    · rw [hempty]
      exact List.nodup_nil
    · intro pid d st et
      simp [hempty, activeCount]
    · intro p hp day hday sl hsl
      simp [hempty, activeCount, hopen p hp day hday sl hsl]
  | create s uid req new_id hs hfresh ih => exact inv_create s uid req new_id hfresh ih
  | cancel s uid aid pay_ok hs ih => exact inv_cancel s uid aid pay_ok ih

/-- C2: in every state reachable under the two appointment operations, each
physician time slot is available XOR referenced by a non-cancelled
appointment — creation books the slot (unavailable, referenced by the new
pending appointment) and cancellation frees it again. -/
theorem slot_available_xor_referenced {s : SchedState} (h : Reachable s) :
    ∀ p ∈ s.physicians, ∀ day ∈ p.schedule, ∀ sl ∈ day.time_slots,
      Xor' (sl.is_available = true)
        (isReferenced s.appointments p.id day.date sl.start_time sl.end_time = true) := by
  obtain ⟨-, -, -, hslot⟩ := reachable_inv h
  intro p hp day hday sl hsl
  have hiff := hslot p hp day hday sl hsl
  by_cases h0 : activeCount s.appointments p.id day.date sl.start_time sl.end_time = 0
  · refine Or.inl ⟨hiff.2 h0, ?_⟩
    rw [isReferenced_eq_true]
    simp [h0]
  · refine Or.inr ⟨isReferenced_eq_true.2 h0, ?_⟩
    intro hav
    exact h0 (hiff.1 hav)

/-- Fresh-schedule sample state used to witness the invariant theorem. -/
def initSched : SchedState :=
  { physicians :=
      [{ id := 1, name := "Ayesha Khan", specialty := "dermatology", is_active := true,
         consultation_price := 300,
         schedule := [{ date := "2023-05-15",
                        time_slots := [{ start_time := "09:00", end_time := "09:30",
                                         is_available := true }] }] }],
    appointments := [] }

/-- Witness for C2 at a concrete reachable state and slot. -/
theorem slot_available_xor_referenced_witness :
    Xor' ((({ start_time := "09:00", end_time := "09:30", is_available := true } :
        TimeSlot)).is_available = true)
      (isReferenced initSched.appointments 1 "2023-05-15" "09:00" "09:30" = true) := by
  have h := slot_available_xor_referenced
    (Reachable.init initSched (by decide) (by decide) rfl)
    { id := 1, name := "Ayesha Khan", specialty := "dermatology", is_active := true,
      consultation_price := 300,
      schedule := [{ date := "2023-05-15",
                     time_slots := [{ start_time := "09:00", end_time := "09:30",
                                      is_available := true }] }] }
    (by decide)
    { date := "2023-05-15",
      time_slots := [{ start_time := "09:00", end_time := "09:30", is_available := true }] }
    (by decide)
    { start_time := "09:00", end_time := "09:30", is_available := true }
    (by decide)
  exact h

/-! ### Claim C3: the frame of `cancel_appointment` on schedules -/

/-- Relation between a physician document before and after a successful
cancellation of appointment `a`: ids, dates and times are untouched, the
slots keyed by the cancelled appointment become available, and every other
slot keeps its previous availability. -/
def SlotFrame (a : Appointment) (p p₂ : Physician) : Prop :=
  p₂.id = p.id ∧ List.Forall₂ (fun day day₂ =>
    day₂.date = day.date ∧ List.Forall₂ (fun sl sl₂ =>
      sl₂.start_time = sl.start_time ∧ sl₂.end_time = sl.end_time ∧
      sl₂.is_available =
        (if p.id = a.physician_id ∧ day.date = a.date ∧
            sl.start_time = a.start_time ∧ sl.end_time = a.end_time
         then true else sl.is_available)) day.time_slots day₂.time_slots)
    p.schedule p₂.schedule

theorem slotFrame_refl_of_miss (a : Appointment) (p : Physician)
    (hmiss : ∀ day ∈ p.schedule, ∀ sl ∈ day.time_slots,
      ¬(p.id = a.physician_id ∧ day.date = a.date ∧
        sl.start_time = a.start_time ∧ sl.end_time = a.end_time)) :
    SlotFrame a p p := by
  refine ⟨rfl, List.forall₂_same.2 ?_⟩
  intro day hday
  refine ⟨rfl, List.forall₂_same.2 ?_⟩
  intro sl hsl
  exact ⟨rfl, rfl, by rw [if_neg (hmiss day hday sl hsl)]⟩

theorem slotFrame_markSchedule (a : Appointment) (p : Physician)
    (hF : schedFilter a.physician_id a.date a.start_time a.end_time p = true) :
    SlotFrame a p (markSchedule a.date a.start_time a.end_time true p) := by
  have hpid : p.id = a.physician_id := (schedFilter_eq_true.1 hF).1
  refine ⟨rfl, ?_⟩
  rw [markSchedule]
  rw [List.forall₂_map_right_iff]
  refine List.forall₂_same.2 ?_
  intro day hday
  by_cases hd : day.date = a.date
  · rw [markDay, if_pos hd]
    refine ⟨rfl, ?_⟩
    rw [List.forall₂_map_right_iff]
    refine List.forall₂_same.2 ?_
    intro sl hsl
    by_cases hm : sl.start_time = a.start_time ∧ sl.end_time = a.end_time
    · rw [markSlot, if_pos hm]
      exact ⟨rfl, rfl, by rw [if_pos ⟨hpid, hd, hm.1, hm.2⟩]⟩
    · rw [markSlot, if_neg hm]
      refine ⟨rfl, rfl, ?_⟩
      rw [if_neg]
      rintro ⟨-, -, h3, h4⟩
      exact hm ⟨h3, h4⟩
  · rw [markDay, if_neg hd]
    refine ⟨rfl, List.forall₂_same.2 ?_⟩
    intro sl hsl
    refine ⟨rfl, rfl, ?_⟩
    rw [if_neg]
    rintro ⟨-, h2, -, -⟩
    exact hd h2

/-- C3: a successful cancellation sets exactly the slots keyed by the
cancelled appointment (physician, date, start, end) to available and
changes the availability of no other slot of any physician. -/
theorem cancel_frees_exactly_its_slot
    (s : SchedState) (uid aid : Nat) (pay_ok : Bool)
    (hnd : (s.physicians.map Physician.id).Nodup)
    (a : Appointment)
    (hfind : s.appointments.find? (fun x => x.id == aid && x.user_id == uid) = some a)
    (hcan : nonCancellable a.status = false) :
    (cancel_appointment s uid aid pay_ok).1 = none ∧
      List.Forall₂ (SlotFrame a) s.physicians
        ((cancel_appointment s uid aid pay_ok).2).physicians := by
  unfold cancel_appointment
  split
  next heq =>
    rw [hfind] at heq
    exact absurd heq (by simp)
  next appt heq =>
    rw [hfind] at heq
    injection heq with heq
    subst heq
    rw [if_neg (by rw [hcan]; simp)]
    refine ⟨rfl, ?_⟩
    show List.Forall₂ (SlotFrame a) s.physicians
      (updateFirst (schedFilter a.physician_id a.date a.start_time a.end_time)
        (markSchedule a.date a.start_time a.end_time true) s.physicians)
    cases hFfind : s.physicians.find?
        (schedFilter a.physician_id a.date a.start_time a.end_time) with
    | none =>
      have hall : ∀ x ∈ s.physicians,
          schedFilter a.physician_id a.date a.start_time a.end_time x = false :=
        fun x hx => Bool.eq_false_iff.2 (List.find?_eq_none.1 hFfind x hx)
      rw [updateFirst_of_forall_neg hall]
      exact List.forall₂_same.2 fun p hp =>
        slotFrame_refl_of_miss a p (schedFilter_false_no_key_slot (hall p hp))
    | some pm =>
      obtain ⟨q₁, q₂, hq, hnegq⟩ := find?_decomp hFfind
      have hFpm := List.find?_some hFfind
      have hne₂ : ∀ y ∈ q₂, y.id ≠ a.physician_id := by
        intro y hy
        have h := (nodup_middle_ne (by rw [← hq]; exact hnd)).2 y hy
        rw [(schedFilter_eq_true.1 hFpm).1] at h
        exact h
      rw [hq, updateFirst_append_cons hnegq hFpm]
      refine List.rel_append ?_ ?_
      · exact List.forall₂_same.2 fun p hp =>
          slotFrame_refl_of_miss a p (schedFilter_false_no_key_slot (hnegq p hp))
      · refine List.Forall₂.cons (slotFrame_markSchedule a pm hFpm) ?_
        refine List.forall₂_same.2 fun p hp => slotFrame_refl_of_miss a p ?_
        rintro day hday sl hsl ⟨h1, -, -, -⟩
        exact hne₂ p hp h1

/-- Sample state with one booked (unavailable) slot and its pending
appointment, used as concrete input for the cancellation theorems. -/
def bookedSched : SchedState :=
  { physicians :=
      [{ id := 1, name := "Ayesha Khan", specialty := "dermatology", is_active := true,
         consultation_price := 300,
         schedule := [{ date := "2023-05-15",
                        time_slots := [{ start_time := "09:00", end_time := "09:30",
                                         is_available := false }] }] }],
    appointments :=
      [{ id := 10, user_id := 7, physician_id := 1, date := "2023-05-15",
         start_time := "09:00", end_time := "09:30", status := .pending,
         payment_status := .pending, payment_intent_id := none, amount := 300 }] }

/-- The appointment stored in `bookedSched`. -/
def bookedAppt : Appointment :=
  { id := 10, user_id := 7, physician_id := 1, date := "2023-05-15",
    start_time := "09:00", end_time := "09:30", status := .pending,
    payment_status := .pending, payment_intent_id := none, amount := 300 }

/-- Witness for C3 at a concrete state. -/
theorem cancel_frees_exactly_its_slot_witness :
    (cancel_appointment bookedSched 7 10 true).1 = none ∧
      List.Forall₂ (SlotFrame bookedAppt) bookedSched.physicians
        ((cancel_appointment bookedSched 7 10 true).2).physicians :=
  cancel_frees_exactly_its_slot bookedSched 7 10 true (by decide) bookedAppt
    (by decide) (by decide)

/-! ### Claim C8: creation status and the cancellation guard -/

/-- C8: a successful `create_appointment` appends an appointment whose
status is `pending`, and for an existing appointment of the user,
`cancel_appointment` fails — leaving the whole state unchanged — exactly
when the status is completed, cancelled or no-show. -/
theorem create_pending_and_cancel_guard
    (s : SchedState) (uid : Nat) (req : ApptRequest) (new_id : Nat)
    (aid : Nat) (pay_ok : Bool) (a : Appointment)
    (hfind : s.appointments.find? (fun x => x.id == aid && x.user_id == uid) = some a) :
    ((create_appointment s uid req new_id).1 = none →
      ∃ appt : Appointment,
        (create_appointment s uid req new_id).2.appointments = s.appointments ++ [appt] ∧
          appt.status = AppointmentStatus.pending ∧ appt.id = new_id) ∧
    ((cancel_appointment s uid aid pay_ok).1 = some CancelError.cannotCancel ↔
      (a.status = .completed ∨ a.status = .cancelled ∨ a.status = .no_show)) ∧
    ((cancel_appointment s uid aid pay_ok).1 ≠ none →
      (cancel_appointment s uid aid pay_ok).2 = s) := by
  have hcancel : ∀ P : Prop,
      ((cancel_appointment s uid aid pay_ok).1 = some CancelError.cannotCancel ↔
        nonCancellable a.status = true) ∧
      ((cancel_appointment s uid aid pay_ok).1 ≠ none →
        (cancel_appointment s uid aid pay_ok).2 = s) := by
    intro _
    unfold cancel_appointment
    split
    next heq =>
      rw [hfind] at heq
      exact absurd heq (by simp)
    next appt heq =>
      rw [hfind] at heq
      injection heq with heq
      subst heq
      by_cases hnc : nonCancellable a.status = true
      · rw [if_pos hnc]
        exact ⟨by simp [hnc], fun _ => rfl⟩
      · rw [if_neg hnc]
        refine ⟨by simp [hnc], ?_⟩
        intro hne
        exact absurd rfl hne
  refine ⟨?_, ?_, (hcancel True).2⟩
  · intro hok
    unfold create_appointment at hok ⊢
    split at hok
    next => exact absurd hok (by simp)
    next phys hf =>
      split at hok
      next hav =>
        rw [if_pos hav]
        exact ⟨_, rfl, rfl, rfl⟩
      next => exact absurd hok (by simp)
  · rw [(hcancel True).1]
    cases a.status <;> simp [nonCancellable]

/-- Witness for C8: concrete successful creation, and a completed
appointment whose cancellation is rejected. -/
def doneSched : SchedState :=
  { physicians :=
      [{ id := 1, name := "Ayesha Khan", specialty := "dermatology", is_active := true,
         consultation_price := 300,
         schedule := [{ date := "2023-05-15",
                        time_slots := [{ start_time := "10:00", end_time := "10:30",
                                         is_available := true }] }] }],
    appointments :=
      [{ id := 10, user_id := 7, physician_id := 1, date := "2023-05-15",
         start_time := "09:00", end_time := "09:30", status := .completed,
         payment_status := .paid, payment_intent_id := none, amount := 300 }] }

theorem create_pending_and_cancel_guard_witness :
    ((create_appointment doneSched 7
        { physician_id := 1, date := "2023-05-15",
          start_time := "10:00", end_time := "10:30" } 11).1 = none →
      ∃ appt : Appointment,
        (create_appointment doneSched 7
          { physician_id := 1, date := "2023-05-15",
            start_time := "10:00", end_time := "10:30" } 11).2.appointments =
            doneSched.appointments ++ [appt] ∧
          appt.status = AppointmentStatus.pending ∧ appt.id = 11) ∧
    ((cancel_appointment doneSched 7 10 true).1 = some CancelError.cannotCancel ↔
      ((doneSched.appointments.headI).status = .completed ∨
        (doneSched.appointments.headI).status = .cancelled ∨
        (doneSched.appointments.headI).status = .no_show)) ∧
    ((cancel_appointment doneSched 7 10 true).1 ≠ none →
      (cancel_appointment doneSched 7 10 true).2 = doneSched) :=
  create_pending_and_cancel_guard doneSched 7
    { physician_id := 1, date := "2023-05-15",
      start_time := "10:00", end_time := "10:30" } 11 10 true
    doneSched.appointments.headI (by decide)

/-! ### Chatbot agent data model (`src/agents/chatbot_agent.py`) -/

/-- Python truthiness of an optional string value (`if not specialty:`):
a missing entity (None) and the empty string are both falsy. -/
def truthy : Option String → Bool
  | none => false
  | some s => !s.isEmpty

/-- Entities extracted by the intent classifier and read by the handlers
(`entities.get("specialty")`, `entities.get("date")`, `entities.get("time")`). -/
structure Entities where
  specialty : Option String
  date : Option String
  time : Option String
deriving DecidableEq, Inhabited

/-- The `chatbot_session` sub-document of a user: current intent and the
slot values accumulated so far (`time` is never stored by the code), plus
the appointment-id list stashed by the cancel/reschedule flows. -/
structure Session where
  intent : Option String
  specialty : Option String
  date : Option String
  appointments : List Nat
deriving DecidableEq, Inhabited

/-- Document of the `users` collection (the fields the chatbot code touches). -/
structure User where
  id : Nat
  phone_number : String
  first_name : String
  last_name : String
  is_verified : Bool
  chatbot_session : Session
deriving DecidableEq, Inhabited

/-- The database state the chatbot handlers read and mutate. -/
structure BotState where
  users : List User
  physicians : List Physician
  appointments : List Appointment
deriving DecidableEq, Inhabited

/-- Bytewise string comparison (the order BSON uses for the date strings),
expressed on the character lists so that it evaluates. -/
def strLt (a b : String) : Bool := decide (a.data < b.data)

theorem strLt_eq_true_iff {a b : String} : strLt a b = true ↔ a < b := by
  rw [strLt, decide_eq_true_eq]
  exact String.lt_iff_toList_lt.symm

/-- Sorted insertion keeping values distinct; building block for the
`$group`-then-`$sort` aggregations. -/
def insertSorted (x : String) : List String → List String
  | [] => [x]
  | y :: ys =>
    if strLt x y then x :: y :: ys
    else if x = y then y :: ys
    else y :: insertSorted x ys

/-- Model of the `{$group: {_id: v}}, {$sort: {_id: 1}}` aggregation stages:
the distinct values in ascending (bytewise) string order. -/
def dedupSort (l : List String) : List String := l.foldr insertSorted []

/-- `_get_available_specialties`: distinct specialties of all physician
documents (no active filter in that pipeline), sorted ascending. -/
def get_available_specialties (physicians : List Physician) : List String :=
  dedupSort (physicians.map Physician.specialty)

/-- `_get_physicians_by_specialty`: active physicians of a specialty, in
collection order. -/
def get_physicians_by_specialty (physicians : List Physician) (specialty : String) :
    List Physician :=
  physicians.filter (fun p => p.specialty == specialty && p.is_active)

/-- Row `$project`-ed by the `_get_available_time_slots` pipeline. -/
structure SlotView where
  physician_id : Nat
  physician_name : String
  start_time : String
  end_time : String
  consultation_price : Nat
deriving DecidableEq, Inhabited

/-- `_get_available_time_slots`: unwind the schedules of the active
physicians of the specialty, keep the entries of the requested date and
their available slots.  The pipeline has no `$sort` stage, so rows come in
collection/array storage order. -/
def get_available_time_slots (physicians : List Physician) (specialty date : String) :
    List SlotView :=
  (physicians.filter (fun p => p.specialty == specialty && p.is_active)).flatMap fun p =>
    (p.schedule.filter (fun day => day.date == date)).flatMap fun day =>
      (day.time_slots.filter (fun sl => sl.is_available)).map fun sl =>
        { physician_id := p.id, physician_name := p.name,
          start_time := sl.start_time, end_time := sl.end_time,
          consultation_price := p.consultation_price }

/-- `_get_next_available_dates`: distinct schedule dates strictly after
`from_date` of the active physicians of the specialty, ascending, first
`lim` of them.  Slot availability is not consulted by this pipeline. -/
def get_next_available_dates (physicians : List Physician)
    (specialty from_date : String) (lim : Nat) : List String :=
  (dedupSort ((physicians.filter
      (fun p => p.specialty == specialty && p.is_active)).flatMap
    (fun p => (p.schedule.filter (fun day => strLt from_date day.date)).map
      ScheduleDay.date))).take lim

/-- Write to the `chatbot_session` sub-document of one user
(`db.users.update_one({_id: ...}, {$set: {chatbot_session....}})`). -/
def updateUserSession (s : BotState) (uid : Nat) (g : Session → Session) : BotState :=
  { s with users := (updateFirst (fun u => u.id == uid)
      (fun u => { u with chatbot_session := g u.chatbot_session }) s.users) }

/-- The six return statements of `_handle_book_appointment`, each carrying
the data interpolated into its message text. -/
inductive BookReply where
  | askSpecialty (specialties : List String)
  | noPhysicians (specialty : String)
  | askDate (specialty : String) (physicians : List Physician)
  | noSlots (specialty date : String)
  | askTime (specialty date : String) (slots : List SlotView)
  | confirm (specialty date time : String)
deriving DecidableEq, Inhabited

/-- `_handle_book_appointment` (chatbot_agent.py lines 121-213): ask for the
first missing slot value in the order specialty, date, time; session
fields are written before the data lookups of each stage; when all three
are present the session is cleared and the confirmation text returned. -/
def handle_book_appointment (s : BotState) (user : User) (e : Entities) :
    BookReply × BotState :=
  if truthy e.specialty = false then
    (.askSpecialty ((get_available_specialties s.physicians).take 5),
     updateUserSession s user.id fun ss => { ss with intent := some "book_appointment" })
  else if truthy e.date = false then
    if (get_physicians_by_specialty s.physicians (e.specialty.getD "")).isEmpty then
      (.noPhysicians (e.specialty.getD ""),
       updateUserSession s user.id fun ss =>
         { ss with intent := some "book_appointment", specialty := e.specialty })
    else
      (.askDate (e.specialty.getD "")
        ((get_physicians_by_specialty s.physicians (e.specialty.getD "")).take 3),
       updateUserSession s user.id fun ss =>
         { ss with intent := some "book_appointment", specialty := e.specialty })
  else if truthy e.time = false then
    if (get_available_time_slots s.physicians (e.specialty.getD "") (e.date.getD "")).isEmpty then
      (.noSlots (e.specialty.getD "") (e.date.getD ""),
       updateUserSession s user.id fun ss =>
         { ss with intent := some "book_appointment", specialty := e.specialty, date := e.date })
    else
      (.askTime (e.specialty.getD "") (e.date.getD "")
        ((get_available_time_slots s.physicians (e.specialty.getD "") (e.date.getD "")).take 6),
       updateUserSession s user.id fun ss =>
         { ss with intent := some "book_appointment", specialty := e.specialty, date := e.date })
  else
    (.confirm (e.specialty.getD "") (e.date.getD "") (e.time.getD ""),
     updateUserSession s user.id fun ss =>
       { ss with intent := none, specialty := none, date := none })

/-- The return statements of `_handle_check_availability`
(chatbot_agent.py lines 215-267). -/
inductive AvailReply where
  | askSpecialty (specialties : List String)
  | askDate (specialty : String)
  | noneNearFuture (specialty : String)
  | nextDates (specialty date : String) (dates : List String)
  | showSlots (specialty date : String) (slots : List SlotView)
deriving DecidableEq, Inhabited

/-- `_handle_check_availability`: given specialty and date, list the open
slots; when there are none, offer `_get_next_available_dates(.., .., 3)`.
This handler performs no database writes. -/
def handle_check_availability (s : BotState) (e : Entities) : AvailReply :=
  if truthy e.specialty = false then
    .askSpecialty ((get_available_specialties s.physicians).take 5)
  else if truthy e.date = false then
    .askDate (e.specialty.getD "")
  else
    if (get_available_time_slots s.physicians (e.specialty.getD "") (e.date.getD "")).isEmpty then
      if (get_next_available_dates s.physicians (e.specialty.getD "") (e.date.getD "") 3).isEmpty then
        .noneNearFuture (e.specialty.getD "")
      else
        .nextDates (e.specialty.getD "") (e.date.getD "")
          (get_next_available_dates s.physicians (e.specialty.getD "") (e.date.getD "") 3)
    else
      .showSlots (e.specialty.getD "") (e.date.getD "")
        ((get_available_time_slots s.physicians (e.specialty.getD "") (e.date.getD "")).take 8)

/-- The two responses `_handle_other` can produce. -/
inductive OtherReply where
  | resumePrompt
  | staticHelp
deriving DecidableEq, Inhabited

/-- `_handle_other` (chatbot_agent.py lines 518-567): with a pending session
intent it answers the resume-or-restart prompt; otherwise it tries to
generate a response with `openai.chat.completions.create` — but the name
`openai` is never imported in `chatbot_agent.py` (only `openai_service`
is), so that call always raises `NameError` and the `except` branch
returns the static help message listing the bot capabilities. -/
def handle_other (user : User) (_message : String) : OtherReply :=
  if truthy user.chatbot_session.intent then .resumePrompt else .staticHelp

/-- Parsed result of the intent-classification call (`intent` and
`entities`; the float `confidence` field is outside the model and no claim
concerns it). -/
structure IntentData where
  intent : String
  entities : Entities
deriving DecidableEq, Inhabited

/-- `get_intent_classification` (openai_service.py lines 529-580) as a
function of the outcome of the external OpenAI call and JSON parse:
`none` models any raised exception, on which the function returns the
default classification with intent "other" and empty entities. -/
def get_intent_classification (api_result : Option IntentData) : IntentData :=
  match api_result with
  | some r => r
  | none =>
    { intent := "other",
      entities := { specialty := none, date := none, time := none } }

/-! ### Claim C1: the fixed order of booking questions -/

/-- The three dialogue slots of the booking flow. -/
inductive SlotField where
  | specialty
  | date
  | time
deriving DecidableEq, Inhabited

/-- Formalization of the claim language: the first missing field among
specialty, date, time in the extracted entities. -/
def firstMissing (e : Entities) : Option SlotField :=
  if truthy e.specialty = false then some .specialty
  else if truthy e.date = false then some .date
  else if truthy e.time = false then some .time
  else none

/-- The slot value a booking reply asks the user for, when it is a slot
question. -/
def questionField : BookReply → Option SlotField
  | .askSpecialty _ => some .specialty
  | .askDate _ _ => some .date
  | .askTime _ _ _ => some .time
  | _ => none

/-- C1: whenever the booking handler asks a slot question, it is for the
first missing field in the order specialty, date, time; with the specialty
missing it always asks for the specialty (in particular with no slots
filled), and with later fields first-missing it asks for them whenever the
corresponding lookup has data. -/
theorem book_asks_first_missing (s : BotState) (user : User) (e : Entities) :
    (∀ f, questionField (handle_book_appointment s user e).1 = some f →
      firstMissing e = some f) ∧
    (firstMissing e = some SlotField.specialty →
      questionField (handle_book_appointment s user e).1 = some SlotField.specialty) ∧
    (firstMissing e = some SlotField.date →
      get_physicians_by_specialty s.physicians (e.specialty.getD "") ≠ [] →
      questionField (handle_book_appointment s user e).1 = some SlotField.date) ∧
    (firstMissing e = some SlotField.time →
      get_available_time_slots s.physicians (e.specialty.getD "") (e.date.getD "") ≠ [] →
      questionField (handle_book_appointment s user e).1 = some SlotField.time) := by
  unfold handle_book_appointment firstMissing
  split_ifs with h1 h2 h3 h4 h5 <;>
    simp_all [questionField, List.isEmpty_iff]

/-- Witness for C1 at a concrete state: no slots filled, so the handler asks
for the specialty. -/
theorem book_asks_first_missing_witness :
    (∀ f, questionField (handle_book_appointment
        { users := [], physicians := [], appointments := [] }
        { id := 7, phone_number := "+971501234567", first_name := "WhatsApp",
          last_name := "User", is_verified := false,
          chatbot_session := { intent := none, specialty := none, date := none,
                               appointments := [] } }
        { specialty := none, date := none, time := none }).1 = some f →
      firstMissing { specialty := none, date := none, time := none } = some f) ∧
    (firstMissing { specialty := none, date := none, time := none } =
        some SlotField.specialty →
      questionField (handle_book_appointment
        { users := [], physicians := [], appointments := [] }
        { id := 7, phone_number := "+971501234567", first_name := "WhatsApp",
          last_name := "User", is_verified := false,
          chatbot_session := { intent := none, specialty := none, date := none,
                               appointments := [] } }
        { specialty := none, date := none, time := none }).1 =
          some SlotField.specialty) ∧
    (firstMissing { specialty := none, date := none, time := none } =
        some SlotField.date →
      get_physicians_by_specialty [] "" ≠ [] →
      questionField (handle_book_appointment
        { users := [], physicians := [], appointments := [] }
        { id := 7, phone_number := "+971501234567", first_name := "WhatsApp",
          last_name := "User", is_verified := false,
          chatbot_session := { intent := none, specialty := none, date := none,
                               appointments := [] } }
        { specialty := none, date := none, time := none }).1 = some SlotField.date) ∧
    (firstMissing { specialty := none, date := none, time := none } =
        some SlotField.time →
      get_available_time_slots [] "" "" ≠ [] →
      questionField (handle_book_appointment
        { users := [], physicians := [], appointments := [] }
        { id := 7, phone_number := "+971501234567", first_name := "WhatsApp",
          last_name := "User", is_verified := false,
          chatbot_session := { intent := none, specialty := none, date := none,
                               appointments := [] } }
        { specialty := none, date := none, time := none }).1 = some SlotField.time) :=
  book_asks_first_missing
    { users := [], physicians := [], appointments := [] }
    { id := 7, phone_number := "+971501234567", first_name := "WhatsApp",
      last_name := "User", is_verified := false,
      chatbot_session := { intent := none, specialty := none, date := none,
                           appointments := [] } }
    { specialty := none, date := none, time := none }

/-! ### Claim C4: classifier failure default and the fallback handler -/

/-- C4 (amended): a failed classifier call yields intent "other" with empty
entities, and the fallback handler answers with the static help message
whenever the session has no pending intent; a user in the middle of
another flow instead gets the resume-or-restart prompt. -/
theorem classifier_failure_defaults_to_help (user : User) (message : String)
    (hno : truthy user.chatbot_session.intent = false) :
    (get_intent_classification none).intent = "other" ∧
    (get_intent_classification none).entities =
      { specialty := none, date := none, time := none } ∧
    handle_other user message = OtherReply.staticHelp := by
  refine ⟨rfl, rfl, ?_⟩
  rw [handle_other, if_neg]
  simp [hno]

/-- Witness for the amended C4 at a concrete user with an empty session. -/
theorem classifier_failure_defaults_to_help_witness :
    (get_intent_classification none).intent = "other" ∧
    (get_intent_classification none).entities =
      { specialty := none, date := none, time := none } ∧
    handle_other
      { id := 7, phone_number := "+971501234567", first_name := "WhatsApp",
        last_name := "User", is_verified := false,
        chatbot_session := { intent := none, specialty := none, date := none,
                             appointments := [] } } "what can you do" =
      OtherReply.staticHelp :=
  classifier_failure_defaults_to_help
    { id := 7, phone_number := "+971501234567", first_name := "WhatsApp",
      last_name := "User", is_verified := false,
      chatbot_session := { intent := none, specialty := none, date := none,
                           appointments := [] } } "what can you do" (by decide)

/-- Counterexample for C4 as stated: a user whose session intent is set gets
the resume-or-restart prompt from the fallback handler, not the static
help message. -/
theorem classifier_fallback_not_always_help :
    handle_other
      { id := 7, phone_number := "+971501234567", first_name := "WhatsApp",
        last_name := "User", is_verified := false,
        chatbot_session := { intent := some "book_appointment", specialty := none,
                             date := none, appointments := [] } } "hello" =
      OtherReply.resumePrompt ∧
    OtherReply.resumePrompt ≠ OtherReply.staticHelp := by
  exact ⟨rfl, by decide⟩

/-! ### Claim C7: no-slots booking turn leaves appointments unchanged -/

/-- C7: with specialty and date filled, time still missing, and no open slot
for that specialty and date, the booking handler returns the no-slots
(try another date) reply and the appointments collection is unchanged —
no appointment record is created. -/
theorem book_no_slots_no_insert (s : BotState) (user : User) (e : Entities)
    (hsp : truthy e.specialty = true) (hd : truthy e.date = true)
    (ht : truthy e.time = false)
    (hslots : get_available_time_slots s.physicians (e.specialty.getD "")
      (e.date.getD "") = []) :
    (handle_book_appointment s user e).1 =
      BookReply.noSlots (e.specialty.getD "") (e.date.getD "") ∧
    ((handle_book_appointment s user e).2).appointments = s.appointments := by
  unfold handle_book_appointment
  rw [if_neg (by simp [hsp]), if_neg (by simp [hd]), if_pos ht,
    if_pos (by simp [hslots])]
  exact ⟨rfl, rfl⟩

/-- Witness for C7 at a concrete state with no physicians. -/
theorem book_no_slots_no_insert_witness :
    (handle_book_appointment { users := [], physicians := [], appointments := [] }
      { id := 7, phone_number := "+971501234567", first_name := "WhatsApp",
        last_name := "User", is_verified := false,
        chatbot_session := { intent := none, specialty := none, date := none,
                             appointments := [] } }
      { specialty := some "dermatology", date := some "2023-05-15", time := none }).1 =
      BookReply.noSlots
        ((some "dermatology" : Option String).getD "")
        ((some "2023-05-15" : Option String).getD "") ∧
    ((handle_book_appointment { users := [], physicians := [], appointments := [] }
      { id := 7, phone_number := "+971501234567", first_name := "WhatsApp",
        last_name := "User", is_verified := false,
        chatbot_session := { intent := none, specialty := none, date := none,
                             appointments := [] } }
      { specialty := some "dermatology", date := some "2023-05-15", time := none }).2).appointments =
      BotState.appointments { users := [], physicians := [], appointments := [] } :=
  book_no_slots_no_insert { users := [], physicians := [], appointments := [] }
    { id := 7, phone_number := "+971501234567", first_name := "WhatsApp",
      last_name := "User", is_verified := false,
      chatbot_session := { intent := none, specialty := none, date := none,
                           appointments := [] } }
    { specialty := some "dermatology", date := some "2023-05-15", time := none }
    (by decide) (by decide) (by decide) rfl

/-! ### Claim C9: completed booking turn clears the session -/

theorem find?_updateFirst_self {α : Type} (f : α → Bool) (g : α → α)
    (hg : ∀ x, f (g x) = f x) (l : List α) :
    (updateFirst f g l).find? f = (l.find? f).map g := by
  induction l with
  | nil => rfl
  | cons x xs ih =>
    by_cases hfx : f x = true
    · simp only [updateFirst, if_pos hfx]
      rw [List.find?_cons_of_pos _ (by rw [hg x]; exact hfx),
        List.find?_cons_of_pos _ hfx]
      rfl
    · simp only [updateFirst, if_neg hfx]
      rw [List.find?_cons_of_neg _ (by simpa using hfx),
        List.find?_cons_of_neg _ (by simpa using hfx), ih]

theorem find?_updateUserSession (s : BotState) (uid : Nat) (g : Session → Session) :
    ((updateUserSession s uid g).users).find? (fun x => x.id == uid) =
      (s.users.find? (fun x => x.id == uid)).map
        (fun u => { u with chatbot_session := g u.chatbot_session }) :=
  find?_updateFirst_self (fun x => x.id == uid)
    (fun u => { u with chatbot_session := g u.chatbot_session }) (fun _ => rfl) s.users

/-- C9: with specialty, date and time all present the booking handler
returns the confirmation reply and clears the stored session: intent,
specialty and date are reset to null (a `time` slot value is never
stored by the code), so no accumulated slot value remains. -/
theorem book_complete_clears_session (s : BotState) (user : User) (e : Entities)
    (hsp : truthy e.specialty = true) (hd : truthy e.date = true)
    (ht : truthy e.time = true) (u₀ : User)
    (hu : s.users.find? (fun x => x.id == user.id) = some u₀) :
    (handle_book_appointment s user e).1 =
      BookReply.confirm (e.specialty.getD "") (e.date.getD "") (e.time.getD "") ∧
    ∃ u₁, ((handle_book_appointment s user e).2).users.find?
        (fun x => x.id == user.id) = some u₁ ∧
      u₁.chatbot_session.intent = none ∧ u₁.chatbot_session.specialty = none ∧
      u₁.chatbot_session.date = none := by
  unfold handle_book_appointment
  rw [if_neg (by simp [hsp]), if_neg (by simp [hd]), if_neg (by simp [ht])]
  refine ⟨rfl, ?_⟩
  rw [find?_updateUserSession, hu]
  exact ⟨_, rfl, rfl, rfl, rfl⟩

/-- Witness for C9 at a concrete state. -/
theorem book_complete_clears_session_witness :
    (handle_book_appointment
      { users := [{ id := 7, phone_number := "+971501234567", first_name := "WhatsApp",
                    last_name := "User", is_verified := false,
                    chatbot_session := { intent := some "book_appointment",
                                         specialty := some "dermatology",
                                         date := some "2023-05-15",
                                         appointments := [] } }],
        physicians := [], appointments := [] }
      { id := 7, phone_number := "+971501234567", first_name := "WhatsApp",
        last_name := "User", is_verified := false,
        chatbot_session := { intent := some "book_appointment",
                             specialty := some "dermatology",
                             date := some "2023-05-15", appointments := [] } }
      { specialty := some "dermatology", date := some "2023-05-15",
        time := some "09:00" }).1 =
      BookReply.confirm
        ((some "dermatology" : Option String).getD "")
        ((some "2023-05-15" : Option String).getD "")
        ((some "09:00" : Option String).getD "") ∧
    ∃ u₁, ((handle_book_appointment
      { users := [{ id := 7, phone_number := "+971501234567", first_name := "WhatsApp",
                    last_name := "User", is_verified := false,
                    chatbot_session := { intent := some "book_appointment",
                                         specialty := some "dermatology",
                                         date := some "2023-05-15",
                                         appointments := [] } }],
        physicians := [], appointments := [] }
      { id := 7, phone_number := "+971501234567", first_name := "WhatsApp",
        last_name := "User", is_verified := false,
        chatbot_session := { intent := some "book_appointment",
                             specialty := some "dermatology",
                             date := some "2023-05-15", appointments := [] } }
      { specialty := some "dermatology", date := some "2023-05-15",
        time := some "09:00" }).2).users.find? (fun x => x.id == 7) = some u₁ ∧
      u₁.chatbot_session.intent = none ∧ u₁.chatbot_session.specialty = none ∧
      u₁.chatbot_session.date = none :=
  book_complete_clears_session
    { users := [{ id := 7, phone_number := "+971501234567", first_name := "WhatsApp",
                  last_name := "User", is_verified := false,
                  chatbot_session := { intent := some "book_appointment",
                                       specialty := some "dermatology",
                                       date := some "2023-05-15",
                                       appointments := [] } }],
      physicians := [], appointments := [] }
    { id := 7, phone_number := "+971501234567", first_name := "WhatsApp",
      last_name := "User", is_verified := false,
      chatbot_session := { intent := some "book_appointment",
                           specialty := some "dermatology",
                           date := some "2023-05-15", appointments := [] } }
    { specialty := some "dermatology", date := some "2023-05-15",
      time := some "09:00" }
    (by decide) (by decide) (by decide)
    { id := 7, phone_number := "+971501234567", first_name := "WhatsApp",
      last_name := "User", is_verified := false,
      chatbot_session := { intent := some "book_appointment",
                           specialty := some "dermatology",
                           date := some "2023-05-15", appointments := [] } }
    (by decide)

/-! ### Claim C10: the booking handler writes only session fields -/

/-- Equality of all user fields except the `chatbot_session` sub-document. -/
def NonSessionEq (u u₂ : User) : Prop :=
  u₂.id = u.id ∧ u₂.phone_number = u.phone_number ∧ u₂.first_name = u.first_name ∧
    u₂.last_name = u.last_name ∧ u₂.is_verified = u.is_verified

theorem forall₂_updateFirst {α : Type} (R : α → α → Prop) (f : α → Bool) (g : α → α)
    (hrefl : ∀ x, R x x) (hg : ∀ x, R x (g x)) (l : List α) :
    List.Forall₂ R l (updateFirst f g l) := by
  induction l with
  | nil => exact List.Forall₂.nil
  | cons x xs ih =>
    simp only [updateFirst]
    split
    · exact List.Forall₂.cons (hg x) (List.forall₂_same.2 fun y _ => hrefl y)
    · exact List.Forall₂.cons (hrefl x) ih

/-- C10: for every input, the booking handler never inserts into the
appointments collection and never changes a physician document (hence no
slot availability); its only writes are to `chatbot_session` fields of
users — every user keeps all non-session fields. -/
theorem book_handler_frame (s : BotState) (user : User) (e : Entities) :
    ((handle_book_appointment s user e).2).appointments = s.appointments ∧
    ((handle_book_appointment s user e).2).physicians = s.physicians ∧
    List.Forall₂ NonSessionEq s.users ((handle_book_appointment s user e).2).users := by
  have huser : ∀ g : Session → Session,
      (updateUserSession s user.id g).appointments = s.appointments ∧
      (updateUserSession s user.id g).physicians = s.physicians ∧
      List.Forall₂ NonSessionEq s.users (updateUserSession s user.id g).users := by
    intro g
    refine ⟨rfl, rfl, ?_⟩
    exact forall₂_updateFirst _ _ _ (fun x => ⟨rfl, rfl, rfl, rfl, rfl⟩)
      (fun x => ⟨rfl, rfl, rfl, rfl, rfl⟩) s.users
  unfold handle_book_appointment
  split_ifs <;> exact huser _

/-! ### Claims C5 and C6: availability lookups -/

theorem mem_insertSorted {x y : String} {l : List String} :
    y ∈ insertSorted x l ↔ y = x ∨ y ∈ l := by
  induction l with
  | nil => simp [insertSorted]
  | cons z zs ih =>
    rw [insertSorted]
    split_ifs with h1 h2
    · simp
    · subst h2
      simp only [List.mem_cons]
      tauto
    · simp only [List.mem_cons, ih]
      tauto

theorem pairwise_insertSorted {x : String} {l : List String}
    (h : l.Pairwise (· < ·)) : (insertSorted x l).Pairwise (· < ·) := by
  induction l with
  | nil => simp [insertSorted]
  | cons z zs ih =>
    rw [List.pairwise_cons] at h
    obtain ⟨hz, hzs⟩ := h
    rw [insertSorted]
    split_ifs with h1 h2
    · have hxz : x < z := strLt_eq_true_iff.1 h1
      rw [List.pairwise_cons]
      refine ⟨?_, List.pairwise_cons.2 ⟨hz, hzs⟩⟩
      intro b hb
      rcases List.mem_cons.1 hb with rfl | hb
      · exact hxz
      · exact lt_trans hxz (hz b hb)
    · exact List.pairwise_cons.2 ⟨hz, hzs⟩
    · rw [List.pairwise_cons]
      refine ⟨?_, ih hzs⟩
      intro b hb
      rcases mem_insertSorted.1 hb with rfl | hb
      · rcases lt_trichotomy b z with hlt | heq | hgt
        · exact absurd (strLt_eq_true_iff.2 hlt) h1
        · exact absurd heq h2
        · exact hgt
      · exact hz b hb

theorem pairwise_dedupSort (l : List String) : (dedupSort l).Pairwise (· < ·) := by
  rw [dedupSort]
  induction l with
  | nil => simp
  | cons x xs ih => exact pairwise_insertSorted ih

theorem mem_dedupSort {y : String} {l : List String} : y ∈ dedupSort l ↔ y ∈ l := by
  rw [dedupSort]
  induction l with
  | nil => simp
  | cons x xs ih =>
    show y ∈ insertSorted x (List.foldr insertSorted [] xs) ↔ _
    rw [mem_insertSorted, ih]
    exact (List.mem_cons).symm

/-- C5 (amended): when specialty and date are given and no open slot exists
for them, the availability handler replies with
`_get_next_available_dates(specialty, date, 3)`: at most 3 dates, strictly
ascending, each strictly after the requested date, and each a schedule
date of some active physician of the specialty — slot availability on
those dates is not checked by the pipeline. -/
theorem next_available_dates_spec (s : BotState) (e : Entities)
    (hsp : truthy e.specialty = true) (hd : truthy e.date = true)
    (hslots : get_available_time_slots s.physicians (e.specialty.getD "")
      (e.date.getD "") = [])
    (hne : get_next_available_dates s.physicians (e.specialty.getD "")
      (e.date.getD "") 3 ≠ []) :
    handle_check_availability s e =
      AvailReply.nextDates (e.specialty.getD "") (e.date.getD "")
        (get_next_available_dates s.physicians (e.specialty.getD "")
          (e.date.getD "") 3) ∧
    (get_next_available_dates s.physicians (e.specialty.getD "")
      (e.date.getD "") 3).length ≤ 3 ∧
    (get_next_available_dates s.physicians (e.specialty.getD "")
      (e.date.getD "") 3).Pairwise (· < ·) ∧
    ∀ x ∈ get_next_available_dates s.physicians (e.specialty.getD "")
        (e.date.getD "") 3,
      (e.date.getD "") < x ∧
        ∃ p ∈ s.physicians, p.specialty = (e.specialty.getD "") ∧
          p.is_active = true ∧ ∃ day ∈ p.schedule, day.date = x := by
  refine ⟨?_, ?_, ?_, ?_⟩
  · unfold handle_check_availability
    rw [if_neg (by simp [hsp]), if_neg (by simp [hd]),
      if_pos (by simp [hslots]), if_neg (by simp [hne])]
  · exact List.length_take_le _ _
  · exact (pairwise_dedupSort _).sublist (List.take_sublist _ _)
  · intro x hx
    have hx₁ := List.mem_of_mem_take hx
    rw [mem_dedupSort] at hx₁
    simp only [List.mem_flatMap, List.mem_map, List.mem_filter,
      Bool.and_eq_true, beq_iff_eq] at hx₁
    obtain ⟨p, ⟨hpmem, hpspec, hpact⟩, day, hday, hdate⟩ := hx₁
    obtain ⟨hdaymem, hgt⟩ := hday
    exact ⟨hdate ▸ strLt_eq_true_iff.1 hgt, p, hpmem, hpspec, hpact, day, hdaymem, hdate⟩

/-- Witness for the amended C5 at a concrete state. -/
def bookedOutPhysicians : List Physician :=
  [{ id := 1, name := "Ayesha Khan", specialty := "dermatology", is_active := true,
     consultation_price := 300,
     schedule := [{ date := "2023-01-02",
                    time_slots := [{ start_time := "09:00", end_time := "09:30",
                                     is_available := false }] }] }]

theorem next_available_dates_spec_witness :
    handle_check_availability
      { users := [], physicians := bookedOutPhysicians, appointments := [] }
      { specialty := some "dermatology", date := some "2023-01-01", time := none } =
      AvailReply.nextDates
        ((some "dermatology" : Option String).getD "")
        ((some "2023-01-01" : Option String).getD "")
        (get_next_available_dates bookedOutPhysicians
          ((some "dermatology" : Option String).getD "")
          ((some "2023-01-01" : Option String).getD "") 3) ∧
    (get_next_available_dates bookedOutPhysicians
      ((some "dermatology" : Option String).getD "")
      ((some "2023-01-01" : Option String).getD "") 3).length ≤ 3 ∧
    (get_next_available_dates bookedOutPhysicians
      ((some "dermatology" : Option String).getD "")
      ((some "2023-01-01" : Option String).getD "") 3).Pairwise (· < ·) ∧
    ∀ x ∈ get_next_available_dates bookedOutPhysicians
        ((some "dermatology" : Option String).getD "")
        ((some "2023-01-01" : Option String).getD "") 3,
      ((some "2023-01-01" : Option String).getD "") < x ∧
        ∃ p ∈ bookedOutPhysicians, p.specialty =
            ((some "dermatology" : Option String).getD "") ∧
          p.is_active = true ∧ ∃ day ∈ p.schedule, day.date = x :=
  next_available_dates_spec
    { users := [], physicians := bookedOutPhysicians, appointments := [] }
    { specialty := some "dermatology", date := some "2023-01-01", time := none }
    (by decide) (by decide) (by decide) (by decide)

/-- Counterexample for C5 as stated: the returned date 2023-01-02 is not "a
date on which the specialty has availability" — the specialty has no open
slot on it. -/
theorem next_dates_include_fully_booked_date :
    get_next_available_dates bookedOutPhysicians "dermatology" "2023-01-01" 3 =
      ["2023-01-02"] ∧
    get_available_time_slots bookedOutPhysicians "dermatology" "2023-01-02" = [] := by
  exact ⟨by decide, by decide⟩

/-- C6 (amended): the `_get_available_time_slots` pipeline has no `$sort`
stage and returns rows in storage order; in particular, when exactly one
active physician document matches the specialty, its schedule holds
exactly one entry for the date, and that entry stores its `time_slots` in
ascending start-time order, the returned open slots are ascending by start
time. -/
theorem available_slots_sorted_of_sorted_storage
    (physicians : List Physician) (specialty date : String)
    (p : Physician) (day : ScheduleDay)
    (hone : physicians.filter (fun q => q.specialty == specialty && q.is_active) = [p])
    (hday : p.schedule.filter (fun d₁ => d₁.date == date) = [day])
    (hsorted : day.time_slots.Pairwise (fun a b => a.start_time ≤ b.start_time)) :
    (get_available_time_slots physicians specialty date).Pairwise
      (fun a b => a.start_time ≤ b.start_time) := by
  rw [get_available_time_slots, hone]
  simp only [List.flatMap_cons, List.flatMap_nil, List.append_nil, hday]
  exact List.Pairwise.map _ (fun a b h => h) (hsorted.filter _)

/-- Physician whose stored slots are not in ascending start-time order. -/
def unsortedPhysicians : List Physician :=
  [{ id := 1, name := "Ayesha Khan", specialty := "dermatology", is_active := true,
     consultation_price := 300,
     schedule := [{ date := "2023-05-15",
                    time_slots := [{ start_time := "10:00", end_time := "10:30",
                                     is_available := true },
                                   { start_time := "09:00", end_time := "09:30",
                                     is_available := true }] }] }]

/-- Counterexample for C6 as stated: the availability lookup returns the
open slots in storage order, here 10:00 before 09:00, which is not
ascending by start time. -/
theorem available_slots_not_sorted :
    (get_available_time_slots unsortedPhysicians "dermatology" "2023-05-15").map
        SlotView.start_time = ["10:00", "09:00"] ∧
    ¬ (get_available_time_slots unsortedPhysicians "dermatology" "2023-05-15").Pairwise
        (fun a b => a.start_time ≤ b.start_time) := by
  have hlt : ("09:00" : String) < "10:00" := strLt_eq_true_iff.1 (by decide)
  refine ⟨by decide, ?_⟩
  intro hpw
  rw [show get_available_time_slots unsortedPhysicians "dermatology" "2023-05-15" =
      [{ physician_id := 1, physician_name := "Ayesha Khan", start_time := "10:00",
         end_time := "10:30", consultation_price := 300 },
       { physician_id := 1, physician_name := "Ayesha Khan", start_time := "09:00",
         end_time := "09:30", consultation_price := 300 }] from by decide] at hpw
  rw [List.pairwise_cons] at hpw
  have hle := hpw.1 _ (List.mem_cons_self _ _)
  exact absurd hle (not_le.mpr hlt)

/-- Sorted-storage sample for the amended C6. -/
def sortedPhysicians : List Physician :=
  [{ id := 1, name := "Ayesha Khan", specialty := "dermatology", is_active := true,
     consultation_price := 300,
     schedule := [{ date := "2023-05-15",
                    time_slots := [{ start_time := "09:00", end_time := "09:30",
                                     is_available := true },
                                   { start_time := "10:00", end_time := "10:30",
                                     is_available := true }] }] }]

/-- Witness for the amended C6 at a concrete sorted store. -/
theorem available_slots_sorted_witness :
    (get_available_time_slots sortedPhysicians "dermatology" "2023-05-15").Pairwise
      (fun a b => a.start_time ≤ b.start_time) :=
  available_slots_sorted_of_sorted_storage sortedPhysicians "dermatology" "2023-05-15"
    { id := 1, name := "Ayesha Khan", specialty := "dermatology", is_active := true,
      consultation_price := 300,
      schedule := [{ date := "2023-05-15",
                     time_slots := [{ start_time := "09:00", end_time := "09:30",
                                      is_available := true },
                                    { start_time := "10:00", end_time := "10:30",
                                      is_available := true }] }] }
    { date := "2023-05-15",
      time_slots := [{ start_time := "09:00", end_time := "09:30",
                       is_available := true },
                     { start_time := "10:00", end_time := "10:30",
                       is_available := true }] }
    (by decide) (by decide)
    (List.pairwise_cons.2
      ⟨fun c hc => by
        rcases List.mem_singleton.1 hc with rfl
        exact le_of_lt (strLt_eq_true_iff.1 (by decide)),
       List.pairwise_singleton _ _⟩)

end Navi
